import Mathlib

/-!
# Verification of the Bybit dashboard/webhook core (`app.py`)

A shallow embedding of the pure parts of the program: the signature
engine (`_build_param_string`, `generate_signature`), the envelope
handling of the two exchange operations, the position cache keyed by
the fetch function's argument tuple with a TTL and global clear, and
the webhook request handler.  Strings are Lean `String`s, bytes are
`Nat`s below 256, machine words are `Nat`s reduced modulo `2 ^ 32`
where the hash arithmetic overflows.

The theorems at the end of the file settle the frozen claims about
this program.
-/

namespace Ztest

/-! ## Bytes and 32-bit words

Models for the byte-level primitives the program calls from the Python
standard library: UTF-8 encoding of strings, SHA-256, HMAC, and
lowercase hex digests (`str.encode`, `hashlib.sha256`, `hmac.new`,
`.hexdigest()`). -/

/-- Reduce a natural number to a 32-bit word. -/
def w32 (n : Nat) : Nat := n % 4294967296

/-- Right rotation of a 32-bit word by `n` places. -/
def rotr32 (n x : Nat) : Nat := w32 ((x >>> n) ||| (x <<< (32 - n)))

/-- SHA-256 choice function; bitwise not is xor with the 32-bit mask. -/
def shaCh (x y z : Nat) : Nat := (x &&& y) ^^^ ((x ^^^ 4294967295) &&& z)

/-- SHA-256 majority function. -/
def shaMaj (x y z : Nat) : Nat := (x &&& y) ^^^ (x &&& z) ^^^ (y &&& z)

/-- SHA-256 big sigma 0. -/
def bigSigma0 (x : Nat) : Nat := rotr32 2 x ^^^ rotr32 13 x ^^^ rotr32 22 x

/-- SHA-256 big sigma 1. -/
def bigSigma1 (x : Nat) : Nat := rotr32 6 x ^^^ rotr32 11 x ^^^ rotr32 25 x

/-- SHA-256 small sigma 0. -/
def smallSigma0 (x : Nat) : Nat := rotr32 7 x ^^^ rotr32 18 x ^^^ (x >>> 3)

/-- SHA-256 small sigma 1. -/
def smallSigma1 (x : Nat) : Nat := rotr32 17 x ^^^ rotr32 19 x ^^^ (x >>> 10)

/-- The 64 SHA-256 round constants (FIPS 180-4), in decimal. -/
def shaK : List Nat :=
  [1116352408, 1899447441, 3049323471, 3921009573, 961987163,
   1508970993, 2453635748, 2870763221, 3624381080, 310598401,
   607225278, 1426881987, 1925078388, 2162078206, 2614888103,
   3248222580, 3835390401, 4022224774, 264347078, 604807628,
   770255983, 1249150122, 1555081692, 1996064986, 2554220882,
   2821834349, 2952996808, 3210313671, 3336571891, 3584528711,
   113926993, 338241895, 666307205, 773529912, 1294757372,
   1396182291, 1695183700, 1986661051, 2177026350, 2456956037,
   2730485921, 2820302411, 3259730800, 3345764771, 3516065817,
   3600352804, 4094571909, 275423344, 430227734, 506948616,
   659060556, 883997877, 958139571, 1322822218, 1537002063,
   1747873779, 1955562222, 2024104815, 2227730452, 2361852424,
   2428436474, 2756734187, 3204031479, 3329325298]

/-- The eight initial SHA-256 hash words (FIPS 180-4), in decimal. -/
def shaH0 : List Nat :=
  [1779033703, 3144134277, 1013904242, 2773480762, 1359893119,
   2600822924, 528734635, 1541459225]

/-- The `k` most significant bytes of `n` seen as a `k`-byte big-endian value. -/
def bytesBE : Nat → Nat → List Nat
  | 0, _ => []
  | k + 1, n => ((n >>> (8 * k)) % 256) :: bytesBE k n

/-- Split a list into consecutive chunks of `n` elements (the final chunk
may be shorter); empty for `n = 0`. -/
def chunksOf (n : Nat) (l : List Nat) : List (List Nat) :=
  if h : n = 0 ∨ l = [] then [] else l.take n :: chunksOf n (l.drop n)
termination_by l.length
decreasing_by
  push_neg at h
  have h1 : 0 < l.length := List.length_pos.mpr h.2
  simp only [List.length_drop]
  omega

/-- Extend the 16-word schedule by `k` further words. -/
def scheduleExtend : Nat → List Nat → List Nat
  | 0, w => w
  | k + 1, w =>
      let n := w.length
      let next := w32 (smallSigma1 (w.getD (n - 2) 0) + w.getD (n - 7) 0 +
        smallSigma0 (w.getD (n - 15) 0) + w.getD (n - 16) 0)
      scheduleExtend k (w ++ [next])

/-- One SHA-256 compression round: the state is the eight working words,
`kw` the sum of round constant and schedule word. -/
def shaRound (st : List Nat) (kw : Nat) : List Nat :=
  match st with
  | [a, b, c, d, e, f, g, h] =>
      let t1 := w32 (h + bigSigma1 e + shaCh e f g + kw)
      let t2 := w32 (bigSigma0 a + shaMaj a b c)
      [w32 (t1 + t2), a, b, c, w32 (d + t1), e, f, g]
  | other => other

/-- Process one 64-byte block into the running hash state. -/
def shaBlock (hs : List Nat) (block : List Nat) : List Nat :=
  let w0 := (chunksOf 4 block).map (fun bs => bs.foldl (fun acc b => acc * 256 + b) 0)
  let w := scheduleExtend 48 w0
  let kws := List.zipWith (fun k x => w32 (k + x)) shaK w
  let st := kws.foldl shaRound hs
  List.zipWith (fun x y => w32 (x + y)) hs st

/-- SHA-256 padding: a `0x80` byte, zeros to 56 mod 64, then the bit length
as an 8-byte big-endian value. -/
def shaPad (msg : List Nat) : List Nat :=
  let L := msg.length
  let r := (L + 1) % 64
  let zeros := (56 + 64 - r) % 64
  msg ++ [128] ++ List.replicate zeros 0 ++ bytesBE 8 (8 * L)

/-- SHA-256 of a byte list, as the 32 digest bytes. -/
def sha256 (msg : List Nat) : List Nat :=
  (((chunksOf 64 (shaPad msg)).foldl shaBlock shaH0).map (bytesBE 4)).flatten

/-- HMAC-SHA256 (RFC 2104) of a message under a key, as the 32 digest
bytes; the block size is 64 bytes. -/
def hmacSha256 (key msg : List Nat) : List Nat :=
  let k0 := if 64 < key.length then sha256 key else key
  let kp := k0 ++ List.replicate (64 - k0.length) 0
  let inner := sha256 (kp.map (fun b => b ^^^ 0x36) ++ msg)
  sha256 (kp.map (fun b => b ^^^ 0x5c) ++ inner)

/-- A lowercase hex digit. -/
def hexDigit (n : Nat) : Char :=
  if n < 10 then Char.ofNat (48 + n) else Char.ofNat (87 + n)

/-- Lowercase hex encoding of a byte list, as `hexdigest` produces. -/
def hexLower (bs : List Nat) : String :=
  String.mk ((bs.map (fun b => [hexDigit (b / 16), hexDigit (b % 16)])).flatten)

/-- UTF-8 encoding of one character. -/
def utf8EncodeCharNat (c : Char) : List Nat :=
  let n := c.toNat
  if n < 128 then [n]
  else if n < 2048 then [192 + n / 64, 128 + n % 64]
  else if n < 65536 then [224 + n / 4096, 128 + (n / 64) % 64, 128 + n % 64]
  else [240 + n / 262144, 128 + (n / 4096) % 64, 128 + (n / 64) % 64, 128 + n % 64]

/-- UTF-8 encoding of a string (`str.encode()`), as a byte list. -/
def utf8Bytes (s : String) : List Nat :=
  (s.data.map utf8EncodeCharNat).flatten

/-! ## Python string operations

Models of the `str` methods the handler uses, on the character lists
underlying Lean strings; the program only ever applies them to ASCII
ticker symbols, sides and header values. -/

/-- `str.upper()`. -/
def pyUpper (s : String) : String := String.mk (s.data.map Char.toUpper)

/-- `str.lower()`. -/
def pyLower (s : String) : String := String.mk (s.data.map Char.toLower)

/-- `str.capitalize()`: first character uppercased, the rest lowercased. -/
def pyCapitalize (s : String) : String :=
  match s.data with
  | [] => ""
  | c :: cs => String.mk (Char.toUpper c :: cs.map Char.toLower)

/-- Left-to-right removal of every non-overlapping occurrence of `pat`
from a character list, as `str.replace(pat, "")` does: on a nonempty
prefix match the scan resumes right after the removed occurrence.  The
fuel argument only bounds the recursion; one unit per character
consumed suffices, so callers pass the list's length. -/
def dropOccs (pat : List Char) : Nat → List Char → List Char
  | 0, l => l
  | _ + 1, [] => []
  | fuel + 1, c :: cs =>
      if pat ≠ [] ∧ pat.isPrefixOf (c :: cs) then dropOccs pat fuel (cs.drop (pat.length - 1))
      else c :: dropOccs pat fuel cs

/-- `s.replace(pat, "")`. -/
def pyReplaceAll (s pat : String) : String :=
  String.mk (dropOccs pat.data s.data.length s.data)

/-- The single-quote character Python's `repr` puts around a string,
as it appears in `str(KeyError(field))`. -/
def pyQuote : String := String.singleton (Char.ofNat 39)

/-! ## Configuration constants (section 2 of `app.py`) -/

/-- `RECV_WINDOW = 5000` (ms). -/
def RECV_WINDOW : Nat := 5000

/-- `REFRESH_INTERVAL = 10_000` (ms). -/
def REFRESH_INTERVAL : Nat := 10000

/-! ## Signature helpers (section 3 of `app.py`)

Query-parameter dicts are embedded as association lists of string
pairs in insertion order; Python dict keys are unique, which the
theorems carry as a `Nodup` hypothesis on the key list. -/

/-- `_build_param_string(p)`: joins `k=v` for `k in sorted(p)` with `&`,
and yields the empty string for an empty dict. -/
def build_param_string (p : List (String × String)) : String :=
  if p.isEmpty then ""
  else
    String.intercalate "&"
      (((p.map Prod.fst).insertionSort (· ≤ ·)).map
        (fun k => k ++ "=" ++ ((p.lookup k).getD "")))

/-- `generate_signature(secret, ts, api_key, recv_window, params, body_str)`:
HMAC-SHA256 of the concatenation
`ts + api_key + recv_window + _build_param_string(params) + body_str`
under the secret, as a lowercase hex digest. -/
def generate_signature (secret ts api_key : String) (recv_window : Nat)
    (params : List (String × String)) (body_str : String) : String :=
  let pre := ts ++ api_key ++ toString recv_window ++ build_param_string params ++ body_str
  hexLower (hmacSha256 (utf8Bytes secret) (utf8Bytes pre))

/-! ## Bybit API, pure parts (section 4 of `app.py`) -/

/-- One open position as the dashboard displays it (spec section 3);
Bybit serializes every field as a string. -/
structure Position where
  symbol : String
  side : String
  size : String
  entryPrice : String
  markPrice : String
  leverage : String
  unrealisedPnl : String
  liqPrice : String
  positionValue : String
  autoAddMargin : String
deriving DecidableEq, Repr

/-- The decoded JSON envelope of a Bybit response: `retCode` (absent keys
read as `0` through `j.get("retCode", 0)`), `retMsg`, and
`result.list`. -/
structure ApiResponse where
  retCode : Option Int
  retMsg : String
  resultList : List Position
deriving DecidableEq, Repr

/-- `j.get("retCode", 0)`. -/
def envelopeCode (j : ApiResponse) : Int := j.retCode.getD 0

/-- The query parameters `fetch_open_positions` builds: always
`category`, then `symbol` if truthy, else `settleCoin`. -/
def positions_params (category symbol settle_coin : String) : List (String × String) :=
  if symbol ≠ "" then [("category", category), ("symbol", symbol)]
  else [("category", category), ("settleCoin", settle_coin)]

/-- Envelope handling in `fetch_open_positions`: a nonzero `retCode`
raises `RuntimeError(f"{retCode}: {retMsg}")`, otherwise the result list
is returned (an empty list becomes an empty frame). -/
def parse_positions_response (j : ApiResponse) : Except String (List Position) :=
  if envelopeCode j ≠ 0 then .error (toString (envelopeCode j) ++ ": " ++ j.retMsg)
  else .ok j.resultList

/-- Envelope handling in `set_auto_add_margin`: same check, returning
the whole decoded body on success. -/
def parse_margin_response (j : ApiResponse) : Except String ApiResponse :=
  if envelopeCode j ≠ 0 then .error (toString (envelopeCode j) ++ ": " ++ j.retMsg)
  else .ok j

/-! ## The position cache

`fetch_open_positions` is wrapped in
`@st.cache_data(ttl=REFRESH_INTERVAL/1000 - 1)`.  Modelled from the
spec and the decorator's documented semantics, since the caching
machinery itself lives in the framework, not in `app.py`: the decorator
memoizes on the full tuple of function arguments, an entry is fresh
while `now - fetchedAt < TTL`, and `.clear()` drops every entry.  Time
is in whole seconds, matching the 9-second TTL the decorator passes. -/

/-- The argument tuple of `fetch_open_positions`, which is the cache key:
`(key, secret, category, symbol, settle_coin)`. -/
structure FetchKey where
  key : String
  secret : String
  category : String
  symbol : String
  settleCoin : String
deriving DecidableEq, Repr

/-- The TTL the decorator receives: `REFRESH_INTERVAL/1000 - 1` seconds. -/
def TTL_SECONDS : Nat := REFRESH_INTERVAL / 1000 - 1

/-- A cache state: entries of key, value and fetch time (seconds). -/
abbrev Cache (α : Type) := List (FetchKey × α × Nat)

/-- The cached value for `k`, provided its entry is within TTL. -/
def cacheLookup {α : Type} (c : Cache α) (now : Nat) (k : FetchKey) : Option α :=
  match c.find? (fun e => decide (e.1 = k)) with
  | some e => if now - e.2.2 < TTL_SECONDS then some e.2.1 else none
  | none => none

/-- Store a freshly fetched value, replacing any entry for the key. -/
def cacheInsert {α : Type} (c : Cache α) (k : FetchKey) (v : α) (now : Nat) : Cache α :=
  (k, v, now) :: c.filter (fun e => decide (e.1 ≠ k))

/-- `fetch_open_positions.clear()`: drop every entry. -/
def cacheClear {α : Type} (_c : Cache α) : Cache α := []

/-- A cached read: a fresh entry is returned as-is; otherwise the fetch
runs (its outcome is the `fetch` argument), a success is stored and
returned, a failure propagates and stores nothing.  The boolean records
whether a fetch was performed. -/
def cacheGet {α : Type} (c : Cache α) (now : Nat) (k : FetchKey) (fetch : Except String α) :
    Except String (α × Cache α × Bool) :=
  match cacheLookup c now k with
  | some v => .ok (v, c, false)
  | none =>
      match fetch with
      | .ok v => .ok (v, cacheInsert c k v now, true)
      | .error e => .error e

/-! ## The webhook handler (section 5 of `app.py`) -/

/-- The decoded JSON body of a webhook request; `none` marks an absent
key. -/
structure WebhookBody where
  symbol : Option String
  side : Option String
  action : Option String
  category : Option String
  settleCoin : Option String
deriving DecidableEq, Repr

/-- The arguments the handler passes to `set_auto_add_margin`. -/
structure MarginCmd where
  category : String
  symbol : String
  side : String
  enable : Bool
deriving DecidableEq, Repr

/-- The handler's outcome: a 200 acknowledgment carrying the exchange
response, or an `HTTPException(status, detail)`. -/
inductive HttpOutcome (ρ : Type) where
  | ok (result : ρ)
  | httpError (status : Nat) (detail : String)
deriving DecidableEq, Repr

/-- Whether the outcome is the 200 acknowledgment. -/
def HttpOutcome.isOk {ρ : Type} : HttpOutcome ρ → Bool
  | .ok _ => true
  | .httpError _ _ => false

/-- The secret gate: with a truthy `WEBHOOK_SECRET`, the request passes
when the `Authorization` header (absent reads as `""`) with every
occurrence of `"Bearer "` removed equals the secret; otherwise the gate
is skipped. -/
def webhookSecretCheck (cfg authHeader : Option String) : Bool :=
  match cfg with
  | none => true
  | some s => if s = "" then true else decide (pyReplaceAll (authHeader.getD "") "Bearer " = s)

/-- The first required field the body lacks, in the order the handler
reads them; `settleCoin` is read with a default and never missing. -/
def firstMissingField (b : WebhookBody) : Option String :=
  if b.symbol = none then some "symbol"
  else if b.side = none then some "side"
  else if b.action = none then some "action"
  else if b.category = none then some "category"
  else none

/-- `str(KeyError(f))` interpolated into `f"Missing {e}"`: the field
name arrives wrapped in the single quotes of Python's `repr`. -/
def missingMsg (f : String) : String := "Missing " ++ pyQuote ++ f ++ pyQuote

/-- The margin command a valid body produces: symbol uppercased, side
capitalized, category as given, and `enable` exactly when the lowercased
action is `"enable"`. -/
def webhookCommand (b : WebhookBody) : MarginCmd :=
  { category := b.category.getD ""
    symbol := pyUpper (b.symbol.getD "")
    side := pyCapitalize (b.side.getD "")
    enable := decide (pyLower (b.action.getD "") = "enable") }

/-- The `/webhook` handler: secret gate, required-field parse, margin
call (its outcome is the `exchange` argument applied to the command),
and on success a global cache clear before the 200 acknowledgment.
Returns the HTTP outcome, the cache afterwards, and whether the
exchange was called. -/
def webhook {ρ : Type} (cfg authHeader : Option String) (body : WebhookBody)
    (exchange : MarginCmd → Except String ρ) (cache : Cache (List Position)) :
    HttpOutcome ρ × Cache (List Position) × Bool :=
  if webhookSecretCheck cfg authHeader = false then
    (.httpError 401 "Invalid webhook secret", cache, false)
  else
    match firstMissingField body with
    | some f => (.httpError 400 (missingMsg f), cache, false)
    | none =>
        match exchange (webhookCommand body) with
        | .error e => (.httpError 500 e, cache, true)
        | .ok res => (.ok res, cacheClear cache, true)

/-- The dashboard row button (section 6 of `app.py`): a successful
`set_auto_add_margin` is followed by `fetch_open_positions.clear()`;
a failure leaves the cache alone and shows the error.  Returns the
cache afterwards and whether the toggle succeeded. -/
def dashboardToggleClick (cache : Cache (List Position))
    (exchangeResult : Except String ApiResponse) : Cache (List Position) × Bool :=
  match exchangeResult with
  | .ok _ => (cacheClear cache, true)
  | .error _ => (cache, false)

/-! ## Spec-side definitions

Definitions written from the spec's words, for comparison against the
embedded source. -/

/-- Spec-side, section 4.1: the sorted query string, built by sorting
the parameter pairs by key lexicographically and joining `k=v` pairs
with `&`. -/
def keyLe (a b : String × String) : Prop := a.1 ≤ b.1

instance : DecidableRel keyLe := fun a b => inferInstanceAs (Decidable (a.1 ≤ b.1))

instance : IsTotal (String × String) keyLe := ⟨fun a b => le_total a.1 b.1⟩

instance : IsTrans (String × String) keyLe := ⟨fun _ _ _ h1 h2 => le_trans h1 h2⟩

/-- Spec-side, section 4.1: sort the pairs by key, join `k=v` with `&`. -/
def sortedQueryStringSpec (p : List (String × String)) : String :=
  String.intercalate "&" ((p.insertionSort keyLe).map (fun kv => kv.1 ++ "=" ++ kv.2))

/-- Claim-side, section 6: the bearer token of an `Authorization`
header, when the header uses the `Bearer` scheme. -/
def claimBearerToken (h : String) : Option String :=
  if "Bearer ".data.isPrefixOf h.data then some (String.mk (h.data.drop 7)) else none

/-- Decidable equality of outcomes, so that witnesses can evaluate the
embedded operations by `decide`. -/
instance {ε α : Type} [DecidableEq ε] [DecidableEq α] : DecidableEq (Except ε α) := fun x y =>
  match x, y with
  | .ok a, .ok b =>
      if h : a = b then isTrue (by rw [h]) else isFalse (fun he => by cases he; exact h rfl)
  | .error a, .error b =>
      if h : a = b then isTrue (by rw [h]) else isFalse (fun he => by cases he; exact h rfl)
  | .ok _, .error _ => isFalse (fun he => by cases he)
  | .error _, .ok _ => isFalse (fun he => by cases he)

/-- Named product instances keep the composed instance terms small
enough for synthesis on the outcome tuples below. -/
instance : DecidableEq (Cache (List Position) × Bool) := instDecidableEqProd

instance : DecidableEq (List Position × Cache (List Position) × Bool) := instDecidableEqProd

instance {ρ : Type} [DecidableEq ρ] :
    DecidableEq (HttpOutcome ρ × Cache (List Position) × Bool) := instDecidableEqProd

/-! ## Helper lemmas -/

/-- In an association list with distinct keys, looking up the key of a
member finds that member's value. -/
theorem lookup_eq_of_mem {p : List (String × String)} {kv : String × String}
    (hm : kv ∈ p) (hnd : (p.map Prod.fst).Nodup) : p.lookup kv.1 = some kv.2 := by
  induction p with
  | nil => cases hm
  | cons hd tl ih =>
    rw [List.map_cons, List.nodup_cons] at hnd
    rcases List.mem_cons.mp hm with rfl | hm2
    · simp [List.lookup]
    · have hne : kv.1 ≠ hd.1 := by
        intro he
        exact hnd.1 (he ▸ List.mem_map_of_mem Prod.fst hm2)
      obtain ⟨k1, v1⟩ := hd
      simp only [List.lookup]
      rw [show (kv.1 == k1) = false from beq_eq_false_iff_ne.mpr hne]
      exact ih hm2 hnd.2

/-- Sorting the keys of an association list agrees with sorting the
pairs by key and projecting. -/
theorem sorted_keys_eq (p : List (String × String)) :
    (p.map Prod.fst).insertionSort (· ≤ ·) = (p.insertionSort keyLe).map Prod.fst := by
  have hperm : ((p.map Prod.fst).insertionSort (· ≤ ·)).Perm
      ((p.insertionSort keyLe).map Prod.fst) :=
    (List.perm_insertionSort _ _).trans
      ((List.perm_insertionSort keyLe p).symm.map Prod.fst)
  have hs1 : List.Sorted (· ≤ ·) ((p.map Prod.fst).insertionSort (· ≤ ·)) :=
    List.sorted_insertionSort _ _
  have hs2 : List.Sorted (· ≤ ·) ((p.insertionSort keyLe).map Prod.fst) :=
    List.pairwise_map.mpr (List.sorted_insertionSort keyLe p)
  exact List.eq_of_perm_of_sorted hperm hs1 hs2

/-- With distinct keys, the source's `_build_param_string` produces the
spec's sorted query string. -/
theorem build_param_string_eq_spec (p : List (String × String))
    (hnd : (p.map Prod.fst).Nodup) : build_param_string p = sortedQueryStringSpec p := by
  unfold build_param_string sortedQueryStringSpec
  cases hp : p with
  | nil => rfl
  | cons hd tl =>
    rw [if_neg (by simp)]
    subst hp
    rw [sorted_keys_eq, List.map_map]
    congr 1
    apply List.map_congr_left
    intro kv hkv
    have hmem : kv ∈ hd :: tl := (List.perm_insertionSort keyLe _).subset hkv
    simp only [Function.comp_apply, lookup_eq_of_mem hmem hnd, Option.getD_some]

/-- With distinct keys, `_build_param_string` is invariant under
permutation of the parameter pairs. -/
theorem build_param_string_eq_of_perm {p1 p2 : List (String × String)}
    (hp : p1.Perm p2) (hnd : (p1.map Prod.fst).Nodup) :
    build_param_string p1 = build_param_string p2 := by
  have hnd2 : (p2.map Prod.fst).Nodup := (hp.map Prod.fst).nodup_iff.mp hnd
  unfold build_param_string
  cases p1 with
  | nil =>
    rw [hp.symm.eq_nil]
  | cons hd tl =>
    have hp2ne : p2 ≠ [] := by
      intro h
      subst h
      exact List.cons_ne_nil hd tl hp.eq_nil
    rw [if_neg (by simp), if_neg (by simp [List.isEmpty_iff, hp2ne])]
    have hkeys : ((hd :: tl).map Prod.fst).insertionSort (· ≤ ·)
        = (p2.map Prod.fst).insertionSort (· ≤ ·) := by
      have hperm : (((hd :: tl).map Prod.fst).insertionSort (· ≤ ·)).Perm
          ((p2.map Prod.fst).insertionSort (· ≤ ·)) :=
        (List.perm_insertionSort _ _).trans
          ((hp.map Prod.fst).trans (List.perm_insertionSort _ _).symm)
      exact List.eq_of_perm_of_sorted hperm
        (List.sorted_insertionSort _ _) (List.sorted_insertionSort _ _)
    rw [hkeys]
    apply congrArg
    apply List.map_congr_left
    intro k hk
    have hk2 : k ∈ p2.map Prod.fst := (List.perm_insertionSort _ _).subset hk
    obtain ⟨kv, hkv, rfl⟩ := List.mem_map.mp hk2
    rw [lookup_eq_of_mem (hp.mem_iff.mpr hkv) hnd, lookup_eq_of_mem hkv hnd2]

/-! ## The claims -/

/-- C3: for every secret, timestamp, apiKey, recvWindow, query-parameter
map (distinct keys, as in a dict) and body string, `generate_signature`
returns the lowercase hex encoding of HMAC-SHA256 of the canonical
string: timestamp, apiKey, recvWindow, the sorted query string and the
body concatenated in that order with no separators. -/
theorem generate_signature_is_hmac_of_canonical (secret ts api_key : String) (recv : Nat)
    (params : List (String × String)) (body_str : String)
    (hnd : (params.map Prod.fst).Nodup) :
    generate_signature secret ts api_key recv params body_str
      = hexLower (hmacSha256 (utf8Bytes secret)
          (utf8Bytes (ts ++ api_key ++ toString recv ++ sortedQueryStringSpec params
            ++ body_str))) := by
  unfold generate_signature
  rw [build_param_string_eq_spec params hnd]

/-- Witness for C3 at a concrete unsorted two-entry parameter map. -/
theorem generate_signature_is_hmac_of_canonical_witness :
    (([("b", "2"), ("a", "1")] : List (String × String)).map Prod.fst).Nodup
    ∧ generate_signature "secret" "1700000000000" "APIKEY" 5000 [("b", "2"), ("a", "1")] ""
      = hexLower (hmacSha256 (utf8Bytes "secret")
          (utf8Bytes ("1700000000000" ++ "APIKEY" ++ toString 5000
            ++ sortedQueryStringSpec [("b", "2"), ("a", "1")] ++ ""))) :=
  ⟨by decide,
    generate_signature_is_hmac_of_canonical "secret" "1700000000000" "APIKEY" 5000
      [("b", "2"), ("a", "1")] "" (by decide)⟩

/-- C9: for parameter maps with the same key-value pairs in different
insertion orders, the canonical query string and hence the signature
are identical, and the empty map yields the empty string. -/
theorem canonical_query_perm_invariant (secret ts api_key : String) (recv : Nat)
    (body_str : String) (p1 p2 : List (String × String))
    (hp : p1.Perm p2) (hnd : (p1.map Prod.fst).Nodup) :
    build_param_string p1 = build_param_string p2
    ∧ generate_signature secret ts api_key recv p1 body_str
        = generate_signature secret ts api_key recv p2 body_str
    ∧ build_param_string ([] : List (String × String)) = "" := by
  have hb := build_param_string_eq_of_perm hp hnd
  refine ⟨hb, ?_, rfl⟩
  unfold generate_signature
  rw [hb]

/-- Witness for C9 at the spec's example pair of maps. -/
theorem canonical_query_perm_invariant_witness :
    (([("b", "2"), ("a", "1")] : List (String × String)).Perm [("a", "1"), ("b", "2")])
    ∧ (([("b", "2"), ("a", "1")] : List (String × String)).map Prod.fst).Nodup
    ∧ build_param_string [("b", "2"), ("a", "1")] = build_param_string [("a", "1"), ("b", "2")]
    ∧ generate_signature "s" "1" "k" 5000 [("b", "2"), ("a", "1")] ""
        = generate_signature "s" "1" "k" 5000 [("a", "1"), ("b", "2")] ""
    ∧ build_param_string ([] : List (String × String)) = "" :=
  ⟨by decide, by decide,
    (canonical_query_perm_invariant "s" "1" "k" 5000 "" [("b", "2"), ("a", "1")]
      [("a", "1"), ("b", "2")] (by decide) (by decide)).1,
    (canonical_query_perm_invariant "s" "1" "k" 5000 "" [("b", "2"), ("a", "1")]
      [("a", "1"), ("b", "2")] (by decide) (by decide)).2.1,
    (canonical_query_perm_invariant "s" "1" "k" 5000 "" [("b", "2"), ("a", "1")]
      [("a", "1"), ("b", "2")] (by decide) (by decide)).2.2⟩

/-- C4: a `get` within TTL of a prior `get` for the same key returns
the same data without a new fetch, a `get` once the TTL has elapsed
performs exactly one new fetch, and the TTL is `REFRESH_INTERVAL`
minus one tick: 9 seconds for the 10000 ms interval. -/
theorem cache_ttl_behavior (k : FetchKey) (v v2 v3 : List Position) (t t2 t3 : Nat)
    (h2 : t2 - t < TTL_SECONDS) (h3 : TTL_SECONDS ≤ t3 - t) :
    cacheGet ([] : Cache (List Position)) t k (.ok v) = .ok (v, [(k, v, t)], true)
    ∧ cacheGet [(k, v, t)] t2 k (.ok v2) = .ok (v, [(k, v, t)], false)
    ∧ cacheGet [(k, v, t)] t3 k (.ok v3) = .ok (v3, [(k, v3, t3)], true)
    ∧ TTL_SECONDS = REFRESH_INTERVAL / 1000 - 1
    ∧ REFRESH_INTERVAL = 10000 ∧ TTL_SECONDS = 9 := by
  refine ⟨?_, ?_, ?_, rfl, rfl, rfl⟩
  · rfl
  · simp [cacheGet, cacheLookup, h2]
  · simp [cacheGet, cacheLookup, cacheInsert, Nat.not_lt.mpr h3]

/-- Witness for C4: a hit 8 seconds after the fetch, a refetch 9
seconds after. -/
theorem cache_ttl_behavior_witness :
    (8 - 0 < TTL_SECONDS) ∧ (TTL_SECONDS ≤ 9 - 0)
    ∧ (cacheGet ([] : Cache (List Position)) 0 ⟨"k", "s", "linear", "BTCUSDT", "USDT"⟩
          (.ok ([] : List Position))
        = .ok ([], [(⟨"k", "s", "linear", "BTCUSDT", "USDT"⟩, [], 0)], true)
      ∧ cacheGet [(⟨"k", "s", "linear", "BTCUSDT", "USDT"⟩, ([] : List Position), 0)] 8
          ⟨"k", "s", "linear", "BTCUSDT", "USDT"⟩ (.ok ([] : List Position))
        = .ok ([], [(⟨"k", "s", "linear", "BTCUSDT", "USDT"⟩, [], 0)], false)
      ∧ cacheGet [(⟨"k", "s", "linear", "BTCUSDT", "USDT"⟩, ([] : List Position), 0)] 9
          ⟨"k", "s", "linear", "BTCUSDT", "USDT"⟩ (.ok ([] : List Position))
        = .ok ([], [(⟨"k", "s", "linear", "BTCUSDT", "USDT"⟩, [], 9)], true)
      ∧ TTL_SECONDS = REFRESH_INTERVAL / 1000 - 1
      ∧ REFRESH_INTERVAL = 10000 ∧ TTL_SECONDS = 9) :=
  ⟨by decide, by decide,
    cache_ttl_behavior ⟨"k", "s", "linear", "BTCUSDT", "USDT"⟩ [] [] [] 0 8 9
      (by decide) (by decide)⟩

/-- C2 fails on the code: two queries with the same category, the same
symbol and therefore the same effective query (the exchange receives
identical parameters) but a differing unused `settleCoin` are distinct
cache keys, so the second `get` within TTL fetches again. -/
theorem cache_key_ignores_effective_query :
    positions_params "linear" "BTCUSDT" "USDT" = positions_params "linear" "BTCUSDT" "BTC"
    ∧ cacheGet (cacheInsert ([] : Cache (List Position))
          ⟨"k", "s", "linear", "BTCUSDT", "USDT"⟩ [] 0) 0
        ⟨"k", "s", "linear", "BTCUSDT", "BTC"⟩ (.ok [])
      = .ok ([], [(⟨"k", "s", "linear", "BTCUSDT", "BTC"⟩, [], 0),
                  (⟨"k", "s", "linear", "BTCUSDT", "USDT"⟩, [], 0)], true) := by
  decide

/-- C2 amended: the cache key is the full argument tuple of
`fetch_open_positions`; within TTL a second `get` is a hit exactly when
the tuples coincide, and any difference — including an unused
`settleCoin` — causes a fresh fetch. -/
theorem cache_key_is_argument_tuple (k1 k2 : FetchKey) (v1 v2 : List Position) (t t2 : Nat)
    (h2 : t2 - t < TTL_SECONDS) :
    cacheGet (cacheInsert ([] : Cache (List Position)) k1 v1 t) t2 k2 (.ok v2)
      = if k2 = k1 then .ok (v1, cacheInsert [] k1 v1 t, false)
        else .ok (v2, cacheInsert (cacheInsert [] k1 v1 t) k2 v2 t2, true) := by
  by_cases hk : k2 = k1
  · subst hk
    simp [cacheGet, cacheLookup, cacheInsert, h2]
  · simp [cacheGet, cacheLookup, cacheInsert, hk, Ne.symm hk]

/-- Witness for C2's amended claim at two keys differing only in the
unused `settleCoin`. -/
theorem cache_key_is_argument_tuple_witness :
    (0 - 0 < TTL_SECONDS)
    ∧ cacheGet (cacheInsert ([] : Cache (List Position))
          ⟨"k", "s", "linear", "BTCUSDT", "USDT"⟩ [] 0) 0
        ⟨"k", "s", "linear", "BTCUSDT", "BTC"⟩ (.ok [])
      = if (⟨"k", "s", "linear", "BTCUSDT", "BTC"⟩ : FetchKey)
            = ⟨"k", "s", "linear", "BTCUSDT", "USDT"⟩ then
          .ok ([], cacheInsert [] ⟨"k", "s", "linear", "BTCUSDT", "USDT"⟩ [] 0, false)
        else
          .ok ([], cacheInsert (cacheInsert [] ⟨"k", "s", "linear", "BTCUSDT", "USDT"⟩ [] 0)
            ⟨"k", "s", "linear", "BTCUSDT", "BTC"⟩ [] 0, true) :=
  ⟨by decide,
    cache_key_is_argument_tuple ⟨"k", "s", "linear", "BTCUSDT", "USDT"⟩
      ⟨"k", "s", "linear", "BTCUSDT", "BTC"⟩ [] [] 0 0 (by decide)⟩

/-- C1: every successful margin-toggle execution — a webhook run that
acknowledges with 200, or a dashboard button click whose
`set_auto_add_margin` succeeds — leaves the position cache empty, so
the next `get` for any key performs a fresh fetch. -/
theorem margin_success_clears_cache {ρ : Type} (cfg auth : Option String) (body : WebhookBody)
    (ex : MarginCmd → Except String ρ) (c c2 : Cache (List Position))
    (r : Except String ApiResponse) (t : Nat) (k : FetchKey) (v : List Position) :
    ((webhook cfg auth body ex c).1.isOk = true → (webhook cfg auth body ex c).2.1 = [])
    ∧ ((dashboardToggleClick c2 r).2 = true → (dashboardToggleClick c2 r).1 = [])
    ∧ cacheGet ([] : Cache (List Position)) t k (.ok v) = .ok (v, cacheInsert [] k v t, true) := by
  refine ⟨?_, ?_, rfl⟩
  · unfold webhook
    split
    · intro h
      simp [HttpOutcome.isOk] at h
    · split
      · intro h
        simp [HttpOutcome.isOk] at h
      · split
        · intro h
          simp [HttpOutcome.isOk] at h
        · intro _
          rfl
  · unfold dashboardToggleClick
    cases r with
    | ok _ => intro _; rfl
    | error _ => intro h; simp at h

/-- Witness for C1: a successful webhook run and a successful dashboard
toggle, both starting from a nonempty cache, both ending empty. -/
theorem margin_success_clears_cache_witness :
    (webhook none none ⟨some "BTCUSDT", some "Buy", some "enable", some "linear", none⟩
        (fun _ => Except.ok (0 : Nat))
        [(⟨"k", "s", "linear", "BTCUSDT", "USDT"⟩, [], 0)]).1.isOk = true
    ∧ (webhook none none ⟨some "BTCUSDT", some "Buy", some "enable", some "linear", none⟩
        (fun _ => Except.ok (0 : Nat))
        [(⟨"k", "s", "linear", "BTCUSDT", "USDT"⟩, [], 0)]).2.1 = []
    ∧ (dashboardToggleClick [(⟨"k", "s", "linear", "BTCUSDT", "USDT"⟩, [], 0)]
        (parse_margin_response ⟨some 0, "OK", []⟩)).2 = true
    ∧ (dashboardToggleClick [(⟨"k", "s", "linear", "BTCUSDT", "USDT"⟩, [], 0)]
        (parse_margin_response ⟨some 0, "OK", []⟩)).1 = [] :=
  ⟨by decide,
    (margin_success_clears_cache none none
      ⟨some "BTCUSDT", some "Buy", some "enable", some "linear", none⟩
      (fun _ => Except.ok (0 : Nat)) [(⟨"k", "s", "linear", "BTCUSDT", "USDT"⟩, [], 0)]
      [(⟨"k", "s", "linear", "BTCUSDT", "USDT"⟩, [], 0)]
      (parse_margin_response ⟨some 0, "OK", []⟩) 0
      ⟨"k", "s", "linear", "BTCUSDT", "USDT"⟩ []).1 (by decide),
    by decide,
    (margin_success_clears_cache none none
      ⟨some "BTCUSDT", some "Buy", some "enable", some "linear", none⟩
      (fun _ => Except.ok (0 : Nat)) [(⟨"k", "s", "linear", "BTCUSDT", "USDT"⟩, [], 0)]
      [(⟨"k", "s", "linear", "BTCUSDT", "USDT"⟩, [], 0)]
      (parse_margin_response ⟨some 0, "OK", []⟩) 0
      ⟨"k", "s", "linear", "BTCUSDT", "USDT"⟩ []).2.1 (by decide)⟩

/-- C5: a response envelope with nonzero `retCode` makes the position
listing fail with an error carrying that code and the exchange's
message, while a successful envelope is returned as its list — in
particular an empty list is the empty sequence, not an error. -/
theorem positions_envelope_handling (j jok : ApiResponse)
    (hfail : envelopeCode j ≠ 0) (hok : envelopeCode jok = 0) :
    parse_positions_response j = .error (toString (envelopeCode j) ++ ": " ++ j.retMsg)
    ∧ parse_positions_response jok = .ok jok.resultList
    ∧ (jok.resultList = [] → parse_positions_response jok = .ok []) := by
  refine ⟨?_, ?_, ?_⟩
  · simp [parse_positions_response, hfail]
  · simp [parse_positions_response, hok]
  · intro hl
    simp [parse_positions_response, hok, hl]

/-- Witness for C5 at a rejected envelope and a successful empty one. -/
theorem positions_envelope_handling_witness :
    envelopeCode ⟨some 10016, "params error", []⟩ ≠ 0
    ∧ envelopeCode ⟨some 0, "OK", []⟩ = 0
    ∧ (parse_positions_response ⟨some 10016, "params error", []⟩
        = .error (toString (envelopeCode ⟨some 10016, "params error", []⟩) ++ ": "
            ++ ApiResponse.retMsg ⟨some 10016, "params error", []⟩)
      ∧ parse_positions_response ⟨some 0, "OK", []⟩
        = .ok (ApiResponse.resultList ⟨some 0, "OK", []⟩)
      ∧ (ApiResponse.resultList ⟨some 0, "OK", []⟩ = [] →
          parse_positions_response ⟨some 0, "OK", []⟩ = .ok [])) :=
  ⟨by decide, by decide,
    positions_envelope_handling ⟨some 10016, "params error", []⟩ ⟨some 0, "OK", []⟩
      (by decide) (by decide)⟩

/-- C6 fails on the code: the handler strips every occurrence of the
substring `Bearer ` from the header before comparing, so the request
with header `Bearer Bearer abc` — whose bearer token `Bearer abc`
differs from the configured secret `abc` — is accepted and the
exchange is called instead of the claimed 401 termination. -/
theorem bearer_stripping_accepts_mismatched_token :
    claimBearerToken "Bearer Bearer abc" = some "Bearer abc"
    ∧ some "Bearer abc" ≠ some "abc"
    ∧ (webhook (some "abc") (some "Bearer Bearer abc")
        ⟨some "BTCUSDT", some "Buy", some "enable", some "linear", none⟩
        (fun _ => Except.ok (0 : Nat)) []).1 = .ok 0
    ∧ (webhook (some "abc") (some "Bearer Bearer abc")
        ⟨some "BTCUSDT", some "Buy", some "enable", some "linear", none⟩
        (fun _ => Except.ok (0 : Nat)) []).2.2 = true := by
  decide

/-- C6 amended: with a nonempty secret configured, the handler answers
401 `Invalid webhook secret` — leaving the cache untouched and calling
no exchange operation — exactly when the `Authorization` header with
every occurrence of `Bearer ` removed differs from the secret; with no
secret configured the authentication step is skipped entirely and the
header is ignored. -/
theorem webhook_auth_strips_all_bearer {ρ : Type} (s : String) (auth : Option String)
    (body : WebhookBody) (ex : MarginCmd → Except String ρ) (c : Cache (List Position))
    (hs : s ≠ "") :
    ((webhook (some s) auth body ex c).1 = .httpError 401 "Invalid webhook secret"
      ↔ pyReplaceAll (auth.getD "") "Bearer " ≠ s)
    ∧ (pyReplaceAll (auth.getD "") "Bearer " ≠ s →
        webhook (some s) auth body ex c = (.httpError 401 "Invalid webhook secret", c, false))
    ∧ (∀ (b2 : WebhookBody) (a2 : Option String),
        webhook none a2 b2 ex c = webhook none none b2 ex c) := by
  have hcheck : webhookSecretCheck (some s) auth
      = decide (pyReplaceAll (auth.getD "") "Bearer " = s) := by
    simp [webhookSecretCheck, hs]
  by_cases hcond : pyReplaceAll (auth.getD "") "Bearer " = s
  · have hc : webhookSecretCheck (some s) auth = true := by
      rw [hcheck]
      simp [hcond]
    have hnot : (webhook (some s) auth body ex c).1
        ≠ .httpError 401 "Invalid webhook secret" := by
      unfold webhook
      rw [hc]
      simp only [Bool.true_eq_false, if_false]
      split
      · simp
      · split <;> simp
    exact ⟨⟨fun h1 => absurd h1 hnot, fun h2 => absurd hcond h2⟩,
      fun h2 => absurd hcond h2, fun b2 a2 => rfl⟩
  · have hc : webhookSecretCheck (some s) auth = false := by
      rw [hcheck]
      simp [hcond]
    have hw : webhook (some s) auth body ex c
        = (.httpError 401 "Invalid webhook secret", c, false) := by
      unfold webhook
      rw [hc]
      simp
    exact ⟨⟨fun _ => hcond, fun _ => by rw [hw]⟩, fun _ => hw, fun b2 a2 => rfl⟩

/-- Witness for C6's amended claim: secret `abc`, header
`Bearer wrong` is refused with 401 and no exchange call. -/
theorem webhook_auth_strips_all_bearer_witness :
    ("abc" : String) ≠ ""
    ∧ pyReplaceAll ((some "Bearer wrong").getD "") "Bearer " ≠ "abc"
    ∧ webhook (some "abc") (some "Bearer wrong")
        ⟨some "BTCUSDT", some "Buy", some "enable", some "linear", none⟩
        (fun _ => Except.ok (0 : Nat)) []
      = (.httpError 401 "Invalid webhook secret", [], false) :=
  ⟨by decide, by decide,
    (webhook_auth_strips_all_bearer "abc" (some "Bearer wrong")
      ⟨some "BTCUSDT", some "Buy", some "enable", some "linear", none⟩
      (fun _ => Except.ok (0 : Nat)) [] (by decide)).2.1 (by decide)⟩

/-- C7 fails on the code: a body missing `action` is answered with 400
before any exchange call, but the detail string interpolates
`str(KeyError)` and reads `Missing 'action'` with quotes, not exactly
`Missing action`. -/
theorem missing_field_detail_is_quoted :
    (webhook none none ⟨some "BTCUSDT", some "Buy", none, some "linear", none⟩
        (fun _ => Except.ok (0 : Nat)) []).1 = .httpError 400 (missingMsg "action")
    ∧ missingMsg "action" ≠ "Missing action"
    ∧ (webhook none none ⟨some "BTCUSDT", some "Buy", none, some "linear", none⟩
        (fun _ => Except.ok (0 : Nat)) []).2.2 = false := by
  decide

/-- C7 amended: past the secret gate, a body missing a required field
is answered 400 with detail `Missing` followed by the field name in
single quotes, naming the first missing of `symbol`, `side`, `action`,
`category`, before any exchange call; a body with all four present —
`settleCoin` may be absent — is not rejected and the exchange is
called. -/
theorem webhook_missing_field_handling {ρ : Type} (cfg auth : Option String)
    (body : WebhookBody) (ex : MarginCmd → Except String ρ) (c : Cache (List Position))
    (f : String) (hauth : webhookSecretCheck cfg auth = true) :
    (firstMissingField body = some f →
        webhook cfg auth body ex c = (.httpError 400 (missingMsg f), c, false))
    ∧ (firstMissingField body = none → (webhook cfg auth body ex c).2.2 = true)
    ∧ (body.symbol ≠ none → body.side ≠ none → body.action ≠ none → body.category ≠ none →
        firstMissingField body = none) := by
  refine ⟨?_, ?_, ?_⟩
  · intro hm
    unfold webhook
    rw [hauth]
    simp [hm]
  · intro hm
    unfold webhook
    rw [hauth]
    simp only [Bool.true_eq_false, if_false, hm]
    cases ex (webhookCommand body) <;> rfl
  · intro h1 h2 h3 h4
    simp [firstMissingField, h1, h2, h3, h4]

/-- Witness for C7's amended claim: a body missing only `action` gets
400 `Missing 'action'` with no call; one missing only `settleCoin` gets
through to the exchange. -/
theorem webhook_missing_field_handling_witness :
    webhookSecretCheck none none = true
    ∧ firstMissingField ⟨some "BTCUSDT", some "Buy", none, some "linear", none⟩ = some "action"
    ∧ webhook none none ⟨some "BTCUSDT", some "Buy", none, some "linear", none⟩
        (fun _ => Except.ok (0 : Nat)) []
      = (.httpError 400 (missingMsg "action"), [], false)
    ∧ firstMissingField ⟨some "BTCUSDT", some "Buy", some "enable", some "linear", none⟩ = none
    ∧ (webhook none none ⟨some "BTCUSDT", some "Buy", some "enable", some "linear", none⟩
        (fun _ => Except.ok (0 : Nat)) []).2.2 = true :=
  ⟨by decide, by decide,
    (webhook_missing_field_handling none none
      ⟨some "BTCUSDT", some "Buy", none, some "linear", none⟩
      (fun _ => Except.ok (0 : Nat)) [] "action" (by decide)).1 (by decide),
    by decide,
    (webhook_missing_field_handling none none
      ⟨some "BTCUSDT", some "Buy", some "enable", some "linear", none⟩
      (fun _ => Except.ok (0 : Nat)) [] "action" (by decide)).2.1 (by decide)⟩

/-- C8: the enable flag is true exactly when the lowercased action
string equals `enable`; any other action — including the unsupported
`toggle` — is treated as disable, and such a request is not rejected:
the exchange is still called. -/
theorem webhook_action_to_enable {ρ : Type} (b : WebhookBody) (sym sd act cat : String)
    (stl : Option String) (ex : MarginCmd → Except String ρ) (c : Cache (List Position)) :
    ((webhookCommand b).enable = true ↔ pyLower (b.action.getD "") = "enable")
    ∧ (webhook none none ⟨some sym, some sd, some act, some cat, stl⟩ ex c).2.2 = true
    ∧ (webhookCommand ⟨some sym, some sd, some "toggle", some cat, stl⟩).enable = false := by
  refine ⟨?_, ?_, ?_⟩
  · simp [webhookCommand]
  · unfold webhook
    simp only [webhookSecretCheck, firstMissingField]
    cases ex (webhookCommand ⟨some sym, some sd, some act, some cat, stl⟩) <;> rfl
  · have : pyLower "toggle" = "toggle" := by decide
    simp [webhookCommand, this]

/-- C10: a valid webhook body is normalized before the exchange call —
symbol uppercased, side capitalized — so the lowercase payload
`btcusdt`/`buy` produces the same margin command, and the same handler
outcome, as `BTCUSDT`/`Buy`. -/
theorem webhook_normalizes_symbol_and_side {ρ : Type} (sym sd act cat : String)
    (stl : Option String) (ex : MarginCmd → Except String ρ) (c : Cache (List Position)) :
    webhookCommand ⟨some sym, some sd, some act, some cat, stl⟩
      = ⟨cat, pyUpper sym, pyCapitalize sd, decide (pyLower act = "enable")⟩
    ∧ webhookCommand ⟨some "btcusdt", some "buy", some act, some cat, stl⟩
        = webhookCommand ⟨some "BTCUSDT", some "Buy", some act, some cat, stl⟩
    ∧ webhook none none ⟨some "btcusdt", some "buy", some act, some cat, stl⟩ ex c
        = webhook none none ⟨some "BTCUSDT", some "Buy", some act, some cat, stl⟩ ex c := by
  have h1 : pyUpper "btcusdt" = pyUpper "BTCUSDT" := by decide
  have h2 : pyCapitalize "buy" = pyCapitalize "Buy" := by decide
  have hcmd : webhookCommand ⟨some "btcusdt", some "buy", some act, some cat, stl⟩
      = webhookCommand ⟨some "BTCUSDT", some "Buy", some act, some cat, stl⟩ := by
    simp [webhookCommand, h1, h2]
  refine ⟨rfl, hcmd, ?_⟩
  unfold webhook
  simp [webhookSecretCheck, firstMissingField, hcmd]

end Ztest
